import Mathlib

/-!
Shallow embedding of the xml-serde codec (AS207960/xml-serde): `src/tag.rs`,
`src/lib.rs` (the crate-level `NAME_RE`), `src/ser.rs`, `src/de.rs` and
`src/error.rs`.  Rust strings are Lean `String`s, XML events are explicit
inductive values, stateful code is explicit state passing, fallible code
returns `Except`/`Option`; an `Option` result whose `none` case corresponds to
a Rust panic (`.unwrap()` on a failed regex match, `unreachable!()`) is noted
at the definition.  The external `xml-rs` tokenizer/emitter and the serde
framework are out of scope of the crate (spec §1) and appear only at their
interfaces: event lists, the `escape_str_pcdata` escaping function, and the
visitor continuations.
-/

namespace XmlSerde

/-- Error type of `error.rs` (`enum Error`); the two wrapped tokenizer error
variants carry the underlying error's message. -/
inductive Error where
  | XMLWError (msg : String)
  | XMLRError (msg : String)
  | Message (msg : String)
  | ExpectedString
  | ExpectedChar
  | ExpectedBool
  | ExpectedInt
  | ExpectedElement
  | Unsupported
deriving Repr, DecidableEq

/-- Qualified XML name (`xml::name::OwnedName`): local name, optional
namespace URI and optional prefix (field `pfx` models the Rust field named
after the latter). -/
structure XName where
  local_name : String
  namespace_ : Option String
  pfx : Option String
deriving Repr, DecidableEq

/-- XML attribute (`xml::attribute::OwnedAttribute`). -/
structure XAttr where
  name : XName
  value : String
deriving Repr, DecidableEq

/-- Reader-side XML event (`xml::reader::XmlEvent`), the external tokenizer's
interface consumed by the deserializer. -/
inductive XmlEvent where
  | StartDocument
  | EndDocument
  | StartElement (name : XName) (attributes : List XAttr) (namespace_ : List (String × String))
  | EndElement (name : XName)
  | CData (s : String)
  | Characters (s : String)
  | Comment (s : String)
  | Whitespace (s : String)
  | ProcessingInstruction (name : String) (data : Option String)
deriving Repr, DecidableEq

/-- Writer-side XML event as built by `format_data` (`xml::writer::XmlEvent`):
a start element carries the qualified-name string passed to `start_element`,
the namespace declarations added with `.ns()` / `.default_ns()` (`none` as the
first component for the default namespace) and the attributes added with
`.attr()`, in order. -/
inductive WEvent where
  | StartDocument
  | StartElement (name : String) (nsDecls : List (Option String × String))
      (attributes : List (XName × String))
  | EndElement
  | CData (s : String)
  | Characters (s : String)
  | Comment (s : String)
  | ProcessingInstruction (name : String) (data : Option String)
deriving Repr, DecidableEq

/-- Positions (indices) of character `c` in `cs`, in decreasing order; used to
enumerate the backtracking candidates of a greedy regex quantifier, longest
first. -/
def positionsDesc (c : Char) (cs : List Char) : List Nat :=
  ((List.range cs.length).filter (fun i => cs.get? i == some c)).reverse

/-- Match of the common suffix pattern `(?:(?P<p>.+):)?(?P<e>.+)$` of both
`NAME_RE` regexes under the regex crate's leftmost-first, greedy semantics:
`p` greedily ends at the last colon that is preceded by at least one character
(`p` is `.+`) and followed by at least one character (`e` is `.+`); with no
such colon the whole (nonempty) input is `e`.  Returns `none` when the input
is empty. -/
def tailNameMatch (t : List Char) : Option (Option (List Char) × List Char) :=
  match (positionsDesc ':' t).find? (fun k => 0 < k && k + 1 < t.length) with
  | some k => some (some (t.take k), t.drop (k + 1))
  | none => if t.isEmpty then none else some (none, t)

/-- Captures of a `NAME_RE` match: namespace `n`, schema-location hint `l`,
prefix `p` and local name `e`, named after the regex capture groups.  The `e`
group is present in every match, the others are optional. -/
structure Captures where
  n : Option String
  l : Option String
  p : Option String
  e : String
deriving Repr, DecidableEq

/-- Backtracking candidates of the brace group
`\x7b(?P<n>[^;]+)(?:;(?P<l>.*))?\x7d` of `tag.rs`'s private `NAME_RE`, applied
to the input with the opening brace already consumed, in the leftmost-first
preference order of the regex engine: `n` longest first (greedy `[^;]+`, so
`n` may contain a closing brace but never a semicolon); within each `n` the
optional `;l` part is preferred with `l` greedy (closing at the latest brace),
and the hint-less close comes last.  Each candidate is
`(n, l, rest-after-closing-brace)`. -/
def braceCandidatesTag (u : List Char) : List (List Char × Option (List Char) × List Char) :=
  let m := u.takeWhile (fun c => c ≠ ';')
  ((List.range m.length).reverse.map (fun j => j + 1)).flatMap (fun i =>
    let nPart := u.take i
    let v := u.drop i
    let withHint : List (List Char × Option (List Char) × List Char) :=
      match v with
      | ';' :: w => (positionsDesc '}' w).map (fun j => (nPart, some (w.take j), w.drop (j + 1)))
      | _ => []
    let without : List (List Char × Option (List Char) × List Char) :=
      match v with
      | '}' :: rest => [(nPart, none, rest)]
      | _ => []
    withHint ++ without)

/-- Model of `tag.rs`'s private `NAME_RE`
`^(?:\x7b(?P<n>[^;]+)(?:;(?P<l>.*))?\x7d)?(?:(?P<p>.+):)?(?P<e>.+)$` under the
regex crate's leftmost-first, greedy semantics: the optional brace group is
preferred (all its candidates in preference order, each succeeding exactly
when the remainder after the brace is nonempty), and if every brace candidate
fails the whole input goes to the suffix pattern.  `none` models
`captures(...)` returning `None` (only possible on the empty string). -/
def tagNameReCaptures (s : String) : Option Captures :=
  let suffix : List Char → Option String × Option String → Option Captures := fun t nl =>
    (tailNameMatch t).map (fun pe =>
      ⟨nl.1, nl.2, pe.1.map (fun cs => String.mk cs), String.mk pe.2⟩)
  match s.toList with
  | '{' :: u =>
    match (braceCandidatesTag u).findSome? (fun c =>
        suffix c.2.2 (some (String.mk c.1), c.2.1.map (fun cs => String.mk cs))) with
    | some caps => some caps
    | none => suffix s.toList (none, none)
  | cs => suffix cs (none, none)

/-- Model of `lib.rs`'s crate-level `NAME_RE`
`^(?:\x7b(?P<n>.+)\x7d)?(?:(?P<p>.+):)?(?P<e>.+)$`, the regex actually used by
`ser.rs` and `de.rs` through `crate::NAME_RE`.  Unlike `tag.rs`'s private
regex it defines no `l` group, so `captures.name("l")` on its matches is
always `None` (the `l` field below is always `none`), and the greedy `n`
capture runs to the last closing brace and may itself contain semicolons. -/
def libNameReCaptures (s : String) : Option Captures :=
  let suffix : List Char → Option String → Option Captures := fun t nOpt =>
    (tailNameMatch t).map (fun pe =>
      ⟨nOpt, none, pe.1.map (fun cs => String.mk cs), String.mk pe.2⟩)
  match s.toList with
  | '{' :: u =>
    match ((positionsDesc '}' u).filter (fun j => 0 < j)).findSome? (fun j =>
        suffix (u.drop (j + 1)) (some (String.mk (u.take j)))) with
    | some caps => some caps
    | none => suffix s.toList none
  | cs => suffix cs none

/-- Parsed tag, `tag.rs`'s `struct Tag` (namespace `n`, schema-location hint
`l`, prefix `p`, local name `e`). -/
structure Tag where
  n : Option String
  l : Option String
  p : Option String
  e : String
deriving Repr, DecidableEq

/-- Model of `Tag::new`: run `tag.rs`'s `NAME_RE` on the string and read the
four capture groups.  The Rust code calls `.unwrap()` on the capture result,
so a failed match is a panic, modelled by `none`. -/
def Tag.new (str : String) : Option Tag :=
  (tagNameReCaptures str).map (fun c => ⟨c.n, c.l, c.p, c.e⟩)

/-- Model of a Rust `&'static str` as seen by `Tag::from_static`: the address
returned by `as_ptr()` plus the string content.  Two distinct static strings
may share an address: slicing a static string from its start (`&S[0..k]`) is a
`&'static str` whose `as_ptr()` equals `S.as_ptr()` while its content is a
strict prefix of `S`'s. -/
structure StaticStr where
  addr : Nat
  content : String
deriving Repr, DecidableEq

/-- Process-wide cache of `Tag::from_static`, a `BTreeMap<usize, Tag>` keyed
by `as_ptr() as usize`; modelled as an association list from address to tag
(insertion order is irrelevant to lookups because addresses are unique in the
list). -/
abbrev TagCache := List (Nat × Tag)

/-- Model of `Tag::from_static`: look the pointer address up in the cache; on
a miss parse with `Tag::new` and insert, on a hit return the tag cached for
that address — whatever string it was first inserted for.  `none` models the
panic of `Tag::new` on a non-matching string. -/
def Tag.from_static (str : StaticStr) (cache : TagCache) : Option (Tag × TagCache) :=
  match cache.find? (fun ent => ent.1 == str.addr) with
  | some ent => some (ent.2, cache)
  | none => (Tag.new str.content).map (fun t => (t, (str.addr, t) :: cache))

/-- Sequence of `Tag::from_static` calls threading the process-wide cache;
`none` models a panic in one of the calls. -/
def runFromStatic (calls : List StaticStr) (cache : TagCache) : Option TagCache :=
  match calls with
  | [] => some cache
  | s :: rest =>
    match Tag.from_static s cache with
    | some r => runFromStatic rest r.2
    | none => none

/-- Model of Rust's `str::starts_with` over the character sequence (written
out because Lean's built-in `String.startsWith` does not reduce in the
kernel). -/
def strStartsWith (s pre : String) : Bool := pre.toList.isPrefixOf s.toList

/-- Intermediate value tree of the serializer, `ser.rs`'s `_SerializerData`:
text destined for a CDATA event, plain character text, an ordered sequence,
or a structured node with an attribute list and ordered `(tag, node)`
children. -/
inductive _SerializerData where
  | CData (s : String)
  | String (s : String)
  | Seq (s : List _SerializerData)
  | Struct (attrs : List (String × String)) (contents : List (String × _SerializerData))
deriving Repr

mutual

/-- Model of `_SerializerData::as_str`, the comma-joined flattening used for
map keys and attribute values. -/
def _SerializerData.as_str : _SerializerData → String
  | .CData s => s
  | .String s => s
  | .Seq s => ",".intercalate (asStrList s)
  | .Struct _ contents => ",".intercalate (asStrContents contents)

/-- List part of `as_str` over a `Seq`'s members. -/
def asStrList : List _SerializerData → List String
  | [] => []
  | d :: rest => d.as_str :: asStrList rest

/-- List part of `as_str` over a `Struct`'s `(tag, node)` entries (tags are
ignored, as in the source). -/
def asStrContents : List (String × _SerializerData) → List String
  | [] => []
  | (_, d) :: rest => d.as_str :: asStrContents rest

end

/-- Serializer linearization state, `ser.rs`'s `_SerializerState`. -/
structure _SerializerState where
  raw_output : Bool
  ns_stack : List String
  include_schema_location : Bool
deriving Repr, DecidableEq

/-- Initial serializer state built by `to_string_custom` / `to_events_custom`
for a given `include_schema_location` option. -/
def initState (include_schema_location : Bool) : _SerializerState :=
  ⟨false, [], include_schema_location⟩

/-- Model of the external `xml::escape::escape_str_pcdata` at its interface:
PCDATA escaping replaces `<` by `&lt;` and `&` by `&amp;`. -/
def escape_str_pcdata (s : String) : String :=
  String.join (s.toList.map (fun c =>
    if c = '<' then "&lt;" else if c = '&' then "&amp;" else String.mk [c]))

/-- Namespace URI bound to the `xsi` prefix by the serializer. -/
def xsiNamespace : String := "http://www.w3.org/2001/XMLSchema-instance"

/-- Model of `n.rsplit(':').next().unwrap()`: the segment after the last
colon, or the whole string when it has none. -/
def rsplitColonFirst (n : String) : String :=
  String.mk ((n.toList.reverse.takeWhile (fun c => c ≠ ':')).reverse)

/-- Attribute-name resolution of `format_data`: each attribute key is run
through `crate::NAME_RE` and turned into an `xml::name::Name`; the
`.unwrap()` on the captures is a panic (`none`) for a key that does not
match. -/
def resolveAttrs (attrs : List (String × String)) : Option (List (XName × String)) :=
  attrs.mapM (fun a =>
    (libNameReCaptures a.1).map (fun caps => ((⟨caps.e, caps.n, caps.p⟩ : XName), a.2)))

/-- Element-opening logic of `format_data`, written out twice in the source
(ser.rs lines 244–284 for sequence members, lines 307–347 for single values)
and factored here once: build the start event with the `xsi` declaration (when
schema locations are enabled), the tag's namespace declaration (prefixed or
default), and — when the namespace is not yet on the namespace stack — the
`xsi:schemaLocation` attribute (explicit hint, or the derived
`<namespace> <last-segment>.xsd` default) while pushing the namespace and
remembering to pop it; finally the value's resolved attributes.  Returns the
start event, the `should_pop` flag and the updated state. -/
def startElementFor (caps : Captures) (name : String) (resolved : List (XName × String))
    (state : _SerializerState) : WEvent × Bool × _SerializerState :=
  let nsDecls0 : List (Option String × String) :=
    if state.include_schema_location then [(some "xsi", xsiNamespace)] else []
  match caps.n with
  | some n =>
    let nsDecls := nsDecls0 ++ [(caps.p, n)]
    if state.ns_stack.any (fun ns => ns == n) then
      (.StartElement name nsDecls resolved, false, state)
    else
      let loc := match caps.l with
        | some lHint => n ++ " " ++ lHint
        | none => n ++ " " ++ rsplitColonFirst n ++ ".xsd"
      let schemaAttrs :=
        if state.include_schema_location then
          [((⟨"schemaLocation", none, some "xsi"⟩ : XName), loc)]
        else []
      (.StartElement name nsDecls (schemaAttrs ++ resolved), true,
        { state with ns_stack := state.ns_stack ++ [n] })
  | none => (.StartElement name nsDecls0 resolved, false, state)

mutual

/-- Model of `ser.rs`'s `format_data`: linearize the value tree into writer
events, threading the serializer state.  The writer is modelled as the
returned event list (both `EmitterWriter` and `ListWriter` only accumulate,
so writes never fail here); `none` models a panic of
`crate::NAME_RE.captures(..).unwrap()` on a tag or attribute key that does
not match. -/
def format_data (val : _SerializerData) (state : _SerializerState) :
    Option (List WEvent × _SerializerState) :=
  match val with
  | .CData s =>
    some ([.CData (if state.raw_output then s else escape_str_pcdata s)], state)
  | .String s =>
    some ([.Characters (if state.raw_output then s else escape_str_pcdata s)], state)
  | .Seq s => format_seq s state
  | .Struct _ contents => format_contents contents state

/-- Loop of `format_data`'s `Seq` arm. -/
def format_seq (s : List _SerializerData) (state : _SerializerState) :
    Option (List WEvent × _SerializerState) :=
  match s with
  | [] => some ([], state)
  | d :: rest =>
    match format_data d state with
    | none => none
    | some (evs1, st1) =>
      match format_seq rest st1 with
      | none => none
      | some (evs2, st2) => some (evs1 ++ evs2, st2)

/-- Loop of `format_data`'s `Struct` arm over the `(tag, node)` entries: the
`$valueRaw` sentinel turns raw output on for exactly that subtree, any other
`$value`-prefixed sentinel inlines the node, and every other tag is resolved
through `crate::NAME_RE` and emitted as one element — or as one sibling
element per member when the node is a sequence. -/
def format_contents (contents : List (String × _SerializerData)) (state : _SerializerState) :
    Option (List WEvent × _SerializerState) :=
  match contents with
  | [] => some ([], state)
  | (tag, d) :: rest =>
    if tag == "$valueRaw" then
      let old_val := state.raw_output
      match format_data d { state with raw_output := true } with
      | none => none
      | some (evs1, st1) =>
        match format_contents rest { st1 with raw_output := old_val } with
        | none => none
        | some (evs2, st2) => some (evs1 ++ evs2, st2)
    else if strStartsWith tag "$value" then
      match format_data d state with
      | none => none
      | some (evs1, st1) =>
        match format_contents rest st1 with
        | none => none
        | some (evs2, st2) => some (evs1 ++ evs2, st2)
    else
      match libNameReCaptures tag with
      | none => none
      | some caps =>
        let name := match caps.p with
          | some pStr => pStr ++ ":" ++ caps.e
          | none => caps.e
        match d with
        | .Seq s =>
          match format_siblings caps name s state with
          | none => none
          | some (evs1, st1) =>
            match format_contents rest st1 with
            | none => none
            | some (evs2, st2) => some (evs1 ++ evs2, st2)
        | d =>
          let dAttrs := match d with
            | .Struct attrs _ => attrs
            | _ => []
          match resolveAttrs dAttrs with
          | none => none
          | some resolved =>
            match startElementFor caps name resolved state with
            | (elm, should_pop, st1) =>
              match format_data d st1 with
              | none => none
              | some (evs1, st2) =>
                let st3 := if should_pop then { st2 with ns_stack := st2.ns_stack.dropLast }
                  else st2
                match format_contents rest st3 with
                | none => none
                | some (evs2, st4) => some ([elm] ++ evs1 ++ [.EndElement] ++ evs2, st4)

/-- Loop of `format_data`'s sequence-under-tag arm: each member of the
sequence becomes a sibling element under the same resolved tag, with the
namespace pushed and popped per member. -/
def format_siblings (caps : Captures) (name : String) (s : List _SerializerData)
    (state : _SerializerState) : Option (List WEvent × _SerializerState) :=
  match s with
  | [] => some ([], state)
  | d :: rest =>
    let dAttrs := match d with
      | .Struct attrs _ => attrs
      | _ => []
    match resolveAttrs dAttrs with
    | none => none
    | some resolved =>
      match startElementFor caps name resolved state with
      | (elm, should_pop, st1) =>
        match format_data d st1 with
        | none => none
        | some (evs1, st2) =>
          let st3 := if should_pop then { st2 with ns_stack := st2.ns_stack.dropLast } else st2
          match format_siblings caps name rest st3 with
          | none => none
          | some (evs2, st4) => some ([elm] ++ evs1 ++ [.EndElement] ++ evs2, st4)

end

/-- One-step unfolding of `format_contents` on a cons cell, stated as a
standalone definition so proofs can rewrite with it. -/
def format_contents_cons (tag : String) (d : _SerializerData)
    (rest : List (String × _SerializerData)) (state : _SerializerState) :
    Option (List WEvent × _SerializerState) :=
  if tag == "$valueRaw" then
    let old_val := state.raw_output
    match format_data d { state with raw_output := true } with
    | none => none
    | some (evs1, st1) =>
      match format_contents rest { st1 with raw_output := old_val } with
      | none => none
      | some (evs2, st2) => some (evs1 ++ evs2, st2)
  else if strStartsWith tag "$value" then
    match format_data d state with
    | none => none
    | some (evs1, st1) =>
      match format_contents rest st1 with
      | none => none
      | some (evs2, st2) => some (evs1 ++ evs2, st2)
  else
    match libNameReCaptures tag with
    | none => none
    | some caps =>
      let name := match caps.p with
        | some pStr => pStr ++ ":" ++ caps.e
        | none => caps.e
      match d with
      | .Seq s =>
        match format_siblings caps name s state with
        | none => none
        | some (evs1, st1) =>
          match format_contents rest st1 with
          | none => none
          | some (evs2, st2) => some (evs1 ++ evs2, st2)
      | d =>
        let dAttrs := match d with
          | .Struct attrs _ => attrs
          | _ => []
        match resolveAttrs dAttrs with
        | none => none
        | some resolved =>
          match startElementFor caps name resolved state with
          | (elm, should_pop, st1) =>
            match format_data d st1 with
            | none => none
            | some (evs1, st2) =>
              let st3 := if should_pop then { st2 with ns_stack := st2.ns_stack.dropLast }
                else st2
              match format_contents rest st3 with
              | none => none
              | some (evs2, st4) => some ([elm] ++ evs1 ++ [.EndElement] ++ evs2, st4)

/-- Model of `Serializer::serialize_bool`. -/
def serialize_bool (v : Bool) : Except Error _SerializerData :=
  .ok (.String (if v then "true" else "false"))

/-- Model of `Serializer::serialize_i64` (the i8/i16/i32 entry points widen
into it): the decimal rendering of the signed value. -/
def serialize_i64 (v : Int) : Except Error _SerializerData :=
  .ok (.String (toString v))

/-- Model of `Serializer::serialize_u64` (the u8/u16/u32 entry points widen
into it): the decimal rendering of the unsigned value. -/
def serialize_u64 (v : Nat) : Except Error _SerializerData :=
  .ok (.String (toString v))

/-- Model of `Serializer::serialize_f64` (and `serialize_f32`, which widens):
the source formats the float with `v.to_string()`; floating-point rendering
belongs to the Rust standard library, so the model takes the rendered decimal
string (for example `1.5_f64.to_string() == "1.5"`). -/
def serialize_f64 (rendered : String) : Except Error _SerializerData :=
  .ok (.String rendered)

/-- Model of `Serializer::serialize_str`: strings become CDATA-flagged text
nodes. -/
def serialize_str (v : String) : Except Error _SerializerData :=
  .ok (.CData v)

/-- Model of `Serializer::serialize_char`. -/
def serialize_char (v : Char) : Except Error _SerializerData :=
  serialize_str (String.mk [v])

/-- Lowercase hexadecimal alphabet used by the external `hex` crate. -/
def hexDigit (i : Nat) : Char := "0123456789abcdef".toList.getD i '0'

/-- Model of `hex::encode` at its interface: each byte becomes two lowercase
hexadecimal digits, high nibble first. -/
def hex_encode (v : List (Fin 256)) : String :=
  String.mk (v.flatMap (fun b => [hexDigit (b.val / 16), hexDigit (b.val % 16)]))

/-- Model of `Serializer::serialize_bytes`: byte sequences are hex-encoded
into a plain text node, and serialization always succeeds. -/
def serialize_bytes (v : List (Fin 256)) : Except Error _SerializerData :=
  .ok (.String (hex_encode v))

/-- Model of `Serializer::serialize_none` (also `serialize_unit` and
`serialize_unit_struct`, which delegate to it): the empty text node. -/
def serialize_none : Except Error _SerializerData :=
  .ok (.String "")

/-- Model of `Serializer::serialize_unit_variant`: the variant's declared tag
serialized as a string — a bare CDATA text node, with no wrapping entry. -/
def serialize_unit_variant (name : String) (variant_index : Nat) (variant : String) :
    Except Error _SerializerData :=
  serialize_str variant

/-- Model of `Serializer::serialize_newtype_variant` with the payload already
serialized: the payload node wrapped under a single entry keyed by the
variant's declared tag. -/
def serialize_newtype_variant (name : String) (variant_index : Nat) (variant : String)
    (value : _SerializerData) : Except Error _SerializerData :=
  .ok (.Struct [] [(variant, value)])

/-- Model of `Serializer::serialize_tuple_variant`: it constructs a plain
`SeqSerializer` (here: its empty output accumulator), discarding the variant
tag entirely. -/
def serialize_tuple_variant (name : String) (variant_index : Nat) (variant : String)
    (len : Nat) : List _SerializerData :=
  []

/-- Model of `SeqSerializer::end` for all four sequence-like traits
(`SerializeSeq`, `SerializeTuple`, `SerializeTupleStruct`,
`SerializeTupleVariant`): the accumulated elements become a bare sequence
node. -/
def SeqSerializer.end_ (output : List _SerializerData) : Except Error _SerializerData :=
  .ok (.Seq output)

/-- Accumulator of `ser.rs`'s `StructSerializer`: attribute fields and child
fields collected so far. -/
structure StructSerializer where
  attrs : List (String × String)
  keys : List (String × _SerializerData)
deriving Repr

/-- Model of `StructSerializer::serialize_field` with the field's value
already serialized to its tree node: a key carrying the `$attr:` sentinel is
routed to the attribute list under the key with the sentinel stripped and the
value flattened with `as_str`; any other key becomes a child `(tag, node)`
entry. -/
def StructSerializer.serialize_field (st : StructSerializer) (key : String)
    (val : _SerializerData) : StructSerializer :=
  if strStartsWith key "$attr:" then
    { st with attrs := st.attrs ++ [(key.drop 6, val.as_str)] }
  else
    { st with keys := st.keys ++ [(key, val)] }

/-- Model of `StructSerializer::end` (`end` is reserved in Lean). -/
def StructSerializer.end_ (st : StructSerializer) : Except Error _SerializerData :=
  .ok (.Struct st.attrs st.keys)

/-- Accumulator of `ser.rs`'s `StructVariantSerializer`. -/
structure StructVariantSerializer where
  attrs : List (String × String)
  keys : List (String × _SerializerData)
  tag : String
deriving Repr

/-- Model of `Serializer::serialize_struct_variant`: a fresh accumulator
remembering the variant's declared tag. -/
def serialize_struct_variant (name : String) (variant_index : Nat) (variant : String)
    (len : Nat) : StructVariantSerializer :=
  ⟨[], [], variant⟩

/-- Model of `StructVariantSerializer::serialize_field`, identical routing to
`StructSerializer::serialize_field`. -/
def StructVariantSerializer.serialize_field (st : StructVariantSerializer) (key : String)
    (val : _SerializerData) : StructVariantSerializer :=
  if strStartsWith key "$attr:" then
    { st with attrs := st.attrs ++ [(key.drop 6, val.as_str)] }
  else
    { st with keys := st.keys ++ [(key, val)] }

/-- Model of `StructVariantSerializer::end`: wrap the accumulated struct node
under a single entry keyed by the variant tag; the attribute list sits on the
inner node, the outer wrapper has none. -/
def StructVariantSerializer.end_ (st : StructVariantSerializer) : Except Error _SerializerData :=
  .ok (.Struct [] [(st.tag, .Struct st.attrs st.keys)])

/-- Deserializer cursor state (`de.rs`'s `Deserializer`): the remaining
reader events with a `MultiPeek` cursor (each `peek` returns the event at
`peekIdx` and advances the cursor, `reset_peek` rewinds it, `next` consumes
the front event and rewinds it — `itertools::MultiPeek` semantics), the
element nesting depth and the one-shot `is_map_value` flag.  `from_str` has
already consumed the `StartDocument` event before this state is built. -/
structure DeState where
  events : List XmlEvent
  peekIdx : Nat
  depth : Int
  is_map_value : Bool
deriving Repr, DecidableEq

/-- Model of `Deserializer::peek`: return the event at the peek cursor and
advance the cursor; a `None` from the exhausted stream is `ExpectedElement`.
Reader errors live in the external tokenizer and do not arise over a pure
event list. -/
def DeState.peek (st : DeState) : Except Error (XmlEvent × DeState) :=
  match st.events.get? st.peekIdx with
  | some ev => .ok (ev, { st with peekIdx := st.peekIdx + 1 })
  | none => .error .ExpectedElement

/-- Model of `Deserializer::reset_peek`. -/
def DeState.reset_peek (st : DeState) : DeState := { st with peekIdx := 0 }

/-- Model of `Deserializer::next`: consume the front event (resetting the
peek cursor, as `MultiPeek::next` does), tracking element nesting depth. -/
def DeState.next (st : DeState) : Except Error (XmlEvent × DeState) :=
  match st.events with
  | [] => .error .ExpectedElement
  | ev :: rest =>
    let newDepth : Int := match ev with
      | .StartElement _ _ _ => st.depth + 1
      | .EndElement _ => st.depth - 1
      | _ => st.depth
    .ok (ev, { events := rest, peekIdx := 0, depth := newDepth, is_map_value := st.is_map_value })

/-- Model of `Deserializer::set_map_value`. -/
def DeState.set_map_value (st : DeState) : DeState := { st with is_map_value := true }

/-- Model of `Deserializer::unset_map_value`: returns the old flag and clears
it. -/
def DeState.unset_map_value (st : DeState) : Bool × DeState :=
  (st.is_map_value, { st with is_map_value := false })

/-- Model of `Deserializer::expect_end_element`: the next event must be an
end element with exactly the remembered name. -/
def DeState.expect_end_element (st : DeState) (old_name : XName) : Except Error DeState :=
  match st.next with
  | .error e => .error e
  | .ok (.EndElement name, st1) =>
    if name = old_name then .ok st1 else .error .ExpectedElement
  | .ok (_, _) => .error .ExpectedElement

/-- Model of `Deserializer::read_inner_value`: when the one-shot map-value
flag is set, first consume a wrapping start element, run the body, then
require the matching end element; otherwise run the body in place. -/
def read_inner_value {α : Type} (st : DeState)
    (f : DeState → Except Error (α × DeState)) : Except Error (α × DeState) :=
  match st.unset_map_value with
  | (true, st0) =>
    match st0.next with
    | .error e => .error e
    | .ok (.StartElement name _ _, st1) =>
      match f st1 with
      | .error e => .error e
      | .ok (result, st2) =>
        match st2.expect_end_element name with
        | .error e => .error e
        | .ok st3 => .ok (result, st3)
    | .ok (_, _) => .error .ExpectedElement
  | (false, st0) => f st0

/-- Model of `Deserializer::read_inner_value_attrs`: like `read_inner_value`
but passing the wrapping element's attributes (or an empty list) to the
body. -/
def read_inner_value_attrs {α : Type} (st : DeState)
    (f : DeState → List XAttr → Except Error (α × DeState)) : Except Error (α × DeState) :=
  match st.unset_map_value with
  | (true, st0) =>
    match st0.next with
    | .error e => .error e
    | .ok (.StartElement name attributes _, st1) =>
      match f st1 attributes with
      | .error e => .error e
      | .ok (result, st2) =>
        match st2.expect_end_element name with
        | .error e => .error e
        | .ok st3 => .ok (result, st3)
    | .ok (_, _) => .error .ExpectedElement
  | (false, st0) => f st0 []

/-- Qualified-name rendering of an `XName`, `prefix:local` or bare local
name. -/
def qualifiedName (n : XName) : String :=
  match n.pfx with
  | some pStr => pStr ++ ":" ++ n.local_name
  | none => n.local_name

/-- Model of `xml::reader::XmlEvent::as_writer_event` at its interface:
reader events mapped to writer events; `EndDocument` has no writer
counterpart, whitespace becomes characters. -/
def as_writer_event : XmlEvent → Option WEvent
  | .StartDocument => some .StartDocument
  | .EndDocument => none
  | .StartElement name attributes namespace_ =>
    some (.StartElement (qualifiedName name)
      (namespace_.map (fun b => (if b.1 = "" then none else some b.1, b.2)))
      (attributes.map (fun a => (a.name, a.value))))
  | .EndElement _ => some .EndElement
  | .CData s => some (.CData s)
  | .Characters s => some (.Characters s)
  | .Comment s => some (.Comment s)
  | .Whitespace s => some (.Characters s)
  | .ProcessingInstruction name data => some (.ProcessingInstruction name data)

/-- Rendering loop of the external `xml-rs` event writer used only by the
raw-capture branch of `parse_string` (the emitter is out of scope per spec
§1; modelled at its interface), threading the writer's element-name stack. -/
def renderEvents (evs : List WEvent) (stack : List String) : String :=
  match evs with
  | [] => ""
  | .StartElement name _ attributes :: rest =>
    "<" ++ name ++
      String.join (attributes.map (fun a => " " ++ qualifiedName a.1 ++ "=\"" ++ a.2 ++ "\"")) ++
      ">" ++ renderEvents rest (name :: stack)
  | .EndElement :: rest =>
    "</" ++ stack.headD "" ++ ">" ++ renderEvents rest stack.tail
  | .CData s :: rest => "<![CDATA[" ++ s ++ "]]>" ++ renderEvents rest stack
  | .Characters s :: rest => s ++ renderEvents rest stack
  | .Comment s :: rest => "<!--" ++ s ++ "-->" ++ renderEvents rest stack
  | .ProcessingInstruction _ _ :: rest => renderEvents rest stack
  | .StartDocument :: rest => renderEvents rest stack

/-- String output of the nested capture writer. -/
def writeEventsToString (evs : List WEvent) : String := renderEvents evs []

/-- Consuming `next` strictly shrinks the event list. -/
theorem DeState.next_ok_length {st : DeState} {ev : XmlEvent} {st1 : DeState}
    (h : st.next = .ok (ev, st1)) : st1.events.length < st.events.length := by
  unfold DeState.next at h
  cases hst : st.events with
  | nil => rw [hst] at h; exact absurd h (by simp)
  | cons a l =>
    rw [hst] at h
    simp only [Except.ok.injEq, Prod.mk.injEq] at h
    obtain ⟨h1, h2⟩ := h
    subst h2
    simp [hst]

/-- Loop of `parse_string`'s raw-capture branch: consume events until the
nesting depth returns to the subtree's starting depth (the closing end
element is consumed but not forwarded), forwarding every event that has a
writer counterpart. -/
def capture_subtree (depthTarget : Int) (st : DeState) (acc : List WEvent) :
    Except Error (List WEvent × DeState) :=
  match h : st.next with
  | .error e => .error e
  | .ok (ev, st1) =>
    if st1.depth = depthTarget then .ok (acc, st1)
    else
      match as_writer_event ev with
      | some wev => capture_subtree depthTarget st1 (acc ++ [wev])
      | none => capture_subtree depthTarget st1 acc
termination_by st.events.length
decreasing_by
  · exact DeState.next_ok_length h
  · exact DeState.next_ok_length h

/-- Model of `Deserializer::parse_string`: read an inner value; text (CDATA
or characters) is returned directly, while a nested start element triggers
the raw-capture branch, re-serializing the entire subtree (start tag,
attributes, namespace bindings, descendants, end tag) through a nested
writer back into a raw XML string; anything else is `ExpectedString`. -/
def parse_string (st : DeState) : Except Error (String × DeState) :=
  read_inner_value st (fun this =>
    match this.next with
    | .error e => .error e
    | .ok (.CData s, st1) | .ok (.Characters s, st1) => .ok (s, st1)
    | .ok (.StartElement name attributes namespace_, st1) =>
      let startEv : WEvent := .StartElement (qualifiedName name)
        (namespace_.map (fun b => (if b.1 = "" then none else some b.1, b.2)))
        (attributes.map (fun a => (a.name, a.value)))
      match capture_subtree (st1.depth - 1) st1 [] with
      | .error e => .error e
      | .ok (inner, st2) =>
        .ok (writeEventsToString ([startEv] ++ inner ++ [.EndElement]), st2)
    | .ok (_, _) => .error .ExpectedString)

/-- Model of `Deserializer::parse_bool`: case-insensitive `true|1|y` /
`false|0|n` over the parsed string content. -/
def parse_bool (st : DeState) : Except Error (Bool × DeState) :=
  match parse_string st with
  | .error e => .error e
  | .ok (s, st1) =>
    match s.toLower with
    | "true" | "1" | "y" => .ok (true, st1)
    | "false" | "0" | "n" => .ok (false, st1)
    | _ => .error .ExpectedBool

/-- Model of Rust's `u64::from_str`: an optional leading `+`, then one or
more ASCII digits, rejecting any other character and values that overflow 64
bits. -/
def rustParseU64 (s : String) : Option Nat :=
  let cs := match s.toList with
    | '+' :: rest => rest
    | cs => cs
  if cs.isEmpty then none
  else if cs.all (fun c => c.isDigit) then
    let v := cs.foldl (fun a c => a * 10 + (c.toNat - 48)) 0
    if v < 2 ^ 64 then some v else none
  else none

/-- Model of `Deserializer::parse_int::<u64>`: parse the string content with
the target type's standard numeric parser, any failure becoming
`ExpectedInt`. -/
def parse_int_u64 (st : DeState) : Except Error (Nat × DeState) :=
  match parse_string st with
  | .error e => .error e
  | .ok (s, st1) =>
    match rustParseU64 s with
    | some i => .ok (i, st1)
    | none => .error .ExpectedInt

/-- Model of `Deserializer::deserialize_f64` (and `deserialize_f32`): the
source reads the value with `visitor.visit_u64(self.parse_int()?)`, i.e.
through the unsigned 64-bit integer parser, handing the visitor the parsed
integer rather than a parsed float. -/
def deserialize_f64 (st : DeState) : Except Error (Nat × DeState) :=
  parse_int_u64 st

/-- Model of `Deserializer::deserialize_bytes`: unconditionally
`Unsupported`, whatever the input stream holds. -/
def deserialize_bytes (α : Type) (st : DeState) : Except Error (α × DeState) :=
  .error .Unsupported

/-- Model of `Deserializer::deserialize_byte_buf`: unconditionally
`Unsupported`, whatever the input stream holds. -/
def deserialize_byte_buf (α : Type) (st : DeState) : Except Error (α × DeState) :=
  .error .Unsupported

/-- Model of `Deserializer::deserialize_option` with the visitor's
`visit_some`/`visit_none` continuations explicit.  With the map-value flag
set, a peeked start element carrying attributes is treated as present
without consuming anything (the peek cursor is reset); otherwise a peeked
end element means absent — consuming the pending empty wrapper when the
map-value flag was set — and anything else resets the peek cursor and
recurses into the present value. -/
def deserialize_option {α : Type}
    (visit_some : DeState → Except Error (α × DeState))
    (visit_none : DeState → Except Error (α × DeState))
    (st : DeState) : Except Error (α × DeState) :=
  let rest : DeState → Except Error (α × DeState) := fun st =>
    match st.peek with
    | .error e => .error e
    | .ok (.EndElement _, st1) =>
      let (was, st2) := st1.unset_map_value
      if was then
        match st2.next with
        | .error e => .error e
        | .ok (_, st3) =>
          match st3.next with
          | .error e => .error e
          | .ok (_, st4) => visit_none st4
      else
        match st2.next with
        | .error e => .error e
        | .ok (_, st3) => visit_none st3
    | .ok (_, st1) => visit_some st1.reset_peek
  if st.is_map_value then
    match st.peek with
    | .error e => .error e
    | .ok (.StartElement _ attributes _, st1) =>
      if !attributes.isEmpty then visit_some st1.reset_peek
      else rest st1
    | .ok (_, st1) => rest st1
  else rest st

/-- One declared field (`de.rs`'s `Field`): derived from the declared name
by stripping the `$attr:` sentinel, then running `crate::NAME_RE`; the
`.unwrap()` on the captures is a panic (`none`). -/
structure Field where
  namespace_ : Option String
  local_name : String
  name : String
  attr : Bool
deriving Repr, DecidableEq

/-- Model of `Field::from(&&str)`. -/
def Field.ofDeclared (declared : String) : Option Field :=
  let attr := strStartsWith declared "$attr:"
  let stripped := if attr then declared.drop 6 else declared
  (libNameReCaptures stripped).map (fun caps => ⟨caps.n, caps.e, stripped, attr⟩)

/-- Declared field list of one record/union type (`de.rs`'s `Fields`). -/
structure Fields where
  fields : List Field
  inner_value : Bool
deriving Repr, DecidableEq

/-- Model of `Fields::from(&[&str])`. -/
def Fields.ofList (declared : List String) : Option Fields :=
  (declared.mapM Field.ofDeclared).map (fun fs => ⟨fs, declared.contains "$value"⟩)

/-- Model of `Fields::match_field`: the first declared non-attribute field
with matching (local name, namespace) wins; otherwise the `$value` sentinel
when the field list has the inner-value marker; otherwise the synthesized
`\x7bnamespace\x7dlocal-name` fallback key. -/
def Fields.match_field (fs : Fields) (name : XName) : String :=
  match fs.fields.find? (fun f =>
      f.local_name == name.local_name && f.namespace_ == name.namespace_ && !f.attr) with
  | some f => f.name
  | none =>
    if fs.inner_value then "$value"
    else match name.namespace_ with
      | some n => "\x7b" ++ n ++ "\x7d" ++ name.local_name
      | none => name.local_name

/-- Model of `Fields::match_attr`: like `match_field` restricted to
attribute-flagged fields, returning `$attr:`-prefixed keys both on a hit
(the declared name) and on a miss (the synthesized fallback). -/
def Fields.match_attr (fs : Fields) (name : XName) : String :=
  match fs.fields.find? (fun f =>
      f.local_name == name.local_name && f.namespace_ == name.namespace_ && f.attr) with
  | some f => "$attr:" ++ f.name
  | none =>
    let name_str := match name.namespace_ with
      | some n => "\x7b" ++ n ++ "\x7d" ++ name.local_name
      | none => name.local_name
    "$attr:" ++ name_str

/-- State of `de.rs`'s `Map` access: pending attributes of the wrapping
element, the declared fields, the attribute value pending for the next value
read, and the `inner_value` one-shot flag. -/
structure MapAccess where
  attrs : List XAttr
  fields : Fields
  next_value : Option String
  inner_value : Bool
deriving Repr, DecidableEq

/-- Model of `Map::new`. -/
def MapAccess.new (attrs : List XAttr) (fields : Fields) : MapAccess :=
  ⟨attrs, fields, none, true⟩

/-- Model of `Map::next_key_seed` with the serde key seed at its interface
(the derived field-identifier deserializer accepts any key string): pending
attributes are drained from the back (`Vec::pop`) through `match_attr`, then
the next element or text child is keyed through `match_field` / `$value`;
any other event ends the map (`Ok(None)`). -/
def MapAccess.next_key_seed (m : MapAccess) (st : DeState) :
    Except Error (Option String × MapAccess × DeState) :=
  match m.attrs.getLast? with
  | some a =>
    let name := m.fields.match_attr a.name
    .ok (some name, { m with attrs := m.attrs.dropLast, next_value := some a.value }, st)
  | none =>
    match st.peek with
    | .error e => .error e
    | .ok (.StartElement name _ _, st1) =>
      let nameStr := m.fields.match_field name
      .ok (some nameStr, { m with inner_value := nameStr == "$value" }, st1.reset_peek)
    | .ok (.Characters _, st1) | .ok (.CData _, st1) =>
      .ok (some "$value", m, st1.reset_peek)
    | .ok (_, st1) => .ok (none, m, st1.reset_peek)

/-- Model of `Map::next_value_seed` with the value seed explicit: a pending
attribute value is decoded by the text-only attribute deserializer
(`seedAttr`); otherwise the one-shot `inner_value` flag decides whether the
map-value flag is armed before recursing into the main deserializer
(`seedDe`). -/
def MapAccess.next_value_seed {α : Type} (m : MapAccess)
    (seedDe : DeState → Except Error (α × DeState))
    (seedAttr : String → Except Error α)
    (st : DeState) : Except Error (α × MapAccess × DeState) :=
  match m.next_value with
  | some val =>
    match seedAttr val with
    | .error e => .error e
    | .ok v => .ok (v, { m with next_value := none }, st)
  | none =>
    let m1 := { m with inner_value := false }
    let st1 := if !m.inner_value then st.set_map_value else st
    match seedDe st1 with
    | .error e => .error e
    | .ok (v, st2) => .ok (v, m1, st2)

/-- Model of `Enum::variant_seed` composed with the derived
variant-identifier seed.  The seed itself is generated by serde-derive
(outside this crate); per spec §8 it accepts exactly the declared variant
tags, modelled as membership of the matched key in `accepted`, any other key
failing with a framework `Message` error.  On a start element the matched
field key is used and the map-value flag armed; on text the raw text is
used; any other event is `ExpectedString`.  The peek cursor is reset only on
success (the `?` propagation skips it). -/
def variant_seed (accepted : List String) (fs : Fields) (st : DeState) :
    Except Error (String × DeState) :=
  match st.peek with
  | .error e => .error e
  | .ok (.StartElement name _ _, st1) =>
    let name_str := fs.match_field name
    let st2 := st1.set_map_value
    if accepted.contains name_str then .ok (name_str, st2.reset_peek)
    else .error (.Message ("unknown variant " ++ name_str))
  | .ok (.Characters s, st1) | .ok (.CData s, st1) =>
    if accepted.contains s then .ok (s, st1.reset_peek)
    else .error (.Message ("unknown variant " ++ s))
  | .ok (_, _) => .error .ExpectedString

/-- Model of `Enum::unit_variant`: clear the map-value flag, then accept an
attribute-free start element immediately followed by its matching end
element, or a text event; a start element with attributes is
`ExpectedElement`.  Any other consumed event hits the source's
`unreachable!()`, modelled as `none` (a panic, not a typed error). -/
def unit_variant (st : DeState) : Option (Except Error DeState) :=
  let (_, st0) := st.unset_map_value
  match st0.next with
  | .error e => some (.error e)
  | .ok (.StartElement name attributes _, st1) =>
    if attributes.isEmpty then some (st1.expect_end_element name)
    else some (.error .ExpectedElement)
  | .ok (.Characters _, st1) | .ok (.CData _, st1) => some (.ok st1)
  | .ok (_, _) => none

/-- Predicate on writer events: does the event carry an `xsi:schemaLocation`
attribute? -/
def hasSchemaLocationAttr : WEvent → Bool
  | .StartElement _ _ attributes =>
    attributes.any (fun a => a.1.local_name == "schemaLocation" && a.1.pfx == some "xsi")
  | _ => false

/-- Number of emitted start elements carrying an `xsi:schemaLocation`
attribute. -/
def countSchemaLocationAttrs (evs : List WEvent) : Nat :=
  (evs.filter hasSchemaLocationAttr).length

/-- Predicate on writer events: does the start element declare the namespace
`uri` (with any prefix, or as the default namespace)? -/
def declaresNamespace (uri : String) : WEvent → Bool
  | .StartElement _ nsDecls _ => nsDecls.any (fun d => d.2 == uri)
  | _ => false

/-- Predicate of claim C6's wrapping shape: is the node a structured node
holding exactly one `(tag, node)` entry keyed by `tag`? -/
def isSingleEntryStructKeyed (d : _SerializerData) (tag : String) : Bool :=
  match d with
  | .Struct _ [(t, _)] => t == tag
  | _ => false

/-- Claim C2: the tag resolver (`Tag::new`), applied to the declared name
string `(?)urn:ns;urn:ns loc.xsd(?)p:local` (with braces for the
parentheses), yields namespace `urn:ns`, schema-location hint
`urn:ns loc.xsd`, prefix `p` and local name `local`; applied to `local` it
yields no namespace, no hint, no prefix and local name `local`. -/
theorem c2_tag_resolver_grammar :
    Tag.new "\x7burn:ns;urn:ns loc.xsd\x7dp:local" =
      some ⟨some "urn:ns", some "urn:ns loc.xsd", some "p", "local"⟩ ∧
    Tag.new "local" = some ⟨none, none, none, "local"⟩ :=
  ⟨by decide, by decide⟩

/-- Claim C4: a field declared `$attr:count` is routed by
`StructSerializer::serialize_field` to the attribute list of the enclosing
element under the name `count` (never to the child list), a field declared
plainly `count` is routed to the child list (never to the attribute list);
and in the linearized output the attribute appears on the enclosing
element's start event, not as a child element. -/
theorem c4_attr_field_routing :
    (∀ (st : StructSerializer) (v : _SerializerData),
      st.serialize_field "$attr:count" v = ⟨st.attrs ++ [("count", v.as_str)], st.keys⟩) ∧
    (∀ (st : StructSerializer) (v : _SerializerData),
      st.serialize_field "count" v = ⟨st.attrs, st.keys ++ [("count", v)]⟩) ∧
    format_data (.Struct [] [("e", .Struct [("count", "5")] [("other", .String "x")])])
        (initState true) =
      some ([.StartElement "e" [(some "xsi", xsiNamespace)] [(⟨"count", none, none⟩, "5")],
             .StartElement "other" [(some "xsi", xsiNamespace)] [],
             .Characters "x", .EndElement, .EndElement], initState true) := by
  refine ⟨fun st v => ?_, fun st v => ?_, rfl⟩
  · simp only [StructSerializer.serialize_field,
      show strStartsWith "$attr:count" "$attr:" = true from by decide,
      show "$attr:count".drop 6 = "count" from rfl, if_true]
  · simp only [StructSerializer.serialize_field,
      show strStartsWith "count" "$attr:" = false from by decide, Bool.false_eq_true, if_false]

/-- Claim C6 counterexample: a unit variant with declared tag `ok` serializes
to the bare text node `CData "ok"`, which is not a structured node with a
single entry keyed by the variant tag; and a tuple variant's payload
serializes (via `SeqSerializer::end`) to a bare sequence node, the variant
tag `V` having been discarded by `serialize_tuple_variant`. -/
theorem c6_variant_wrapping_counterexample :
    serialize_unit_variant "EPPDomainStatusType" 0 "ok" = .ok (.CData "ok") ∧
    isSingleEntryStructKeyed (.CData "ok") "ok" = false ∧
    serialize_tuple_variant "E" 0 "V" 2 = [] ∧
    SeqSerializer.end_ [.String "1", .String "2"] = .ok (.Seq [.String "1", .String "2"]) ∧
    isSingleEntryStructKeyed (.Seq [.String "1", .String "2"]) "V" = false :=
  ⟨rfl, by decide, rfl, rfl, by decide⟩

/-- Claim C6 amended: newtype and struct union variants wrap their payload in
a structured node with a single `(tag, node)` entry keyed by the variant's
declared tag; unit variants instead serialize as a bare text (CDATA) node
holding the variant tag string, and tuple variants serialize as a bare
sequence node, the variant tag being discarded. -/
theorem c6_variant_wrapping :
    (∀ (name variant : String) (idx : Nat),
      serialize_unit_variant name idx variant = .ok (.CData variant)) ∧
    (∀ (name variant : String) (idx : Nat) (value : _SerializerData),
      serialize_newtype_variant name idx variant value = .ok (.Struct [] [(variant, value)])) ∧
    (∀ (output : List _SerializerData), SeqSerializer.end_ output = .ok (.Seq output)) ∧
    (∀ (st : StructVariantSerializer),
      st.end_ = .ok (.Struct [] [(st.tag, .Struct st.attrs st.keys)])) :=
  ⟨fun _ _ _ => rfl, fun _ _ _ _ => rfl, fun _ => rfl, fun _ => rfl⟩

/-- Bounded fact: every entry of the lowercase hexadecimal digit table is in
the lowercase hexadecimal alphabet. -/
theorem hexDigit_mem_alphabet : ∀ i : Nat, i < 16 →
    "0123456789abcdef".toList.contains (hexDigit i) = true := by decide

/-- Claim C9: byte-sequence support is asymmetric: serializing any byte
sequence succeeds with the lowercase hexadecimal rendering as the node's
text content (every output character is a lowercase hex digit), while
deserializing into a byte sequence or byte buffer fails with `Unsupported`
for every state of the input stream. -/
theorem c9_bytes_asymmetry :
    (∀ (v : List (Fin 256)), serialize_bytes v = .ok (.String (hex_encode v))) ∧
    (∀ (v : List (Fin 256)),
      (hex_encode v).toList.all (fun c => "0123456789abcdef".toList.contains c) = true) ∧
    (∀ (α : Type) (st : DeState), deserialize_bytes α st = .error .Unsupported) ∧
    (∀ (α : Type) (st : DeState), deserialize_byte_buf α st = .error .Unsupported) := by
  refine ⟨fun v => rfl, fun v => ?_, fun α st => rfl, fun α st => rfl⟩
  induction v with
  | nil => decide
  | cons b rest ih =>
    have h1 : b.val / 16 < 16 := Nat.div_lt_of_lt_mul (by omega)
    have h2 : b.val % 16 < 16 := Nat.mod_lt _ (by norm_num)
    simp only [hex_encode, List.flatMap_cons, String.toList] at ih ⊢
    simp only [List.all_append, List.all_cons, List.all_nil, Bool.and_true, Bool.and_eq_true]
    exact ⟨⟨hexDigit_mem_alphabet _ h1, hexDigit_mem_alphabet _ h2⟩, by simpa using ih⟩

/-- Claim C8 counterexample: with `S = "ab"` a static string at address
4096, the slice `&S[0..1]` is a `&'static str` at the same address with
content `"a"`; after `from_static` has cached `S`, `from_static` on the
slice hits the pointer-keyed cache and returns the tag parsed from `"ab"`,
not `Tag::new("a")`. -/
theorem c8_from_static_alias_counterexample :
    Tag.from_static ⟨4096, "ab"⟩ [] =
      some (⟨none, none, none, "ab"⟩, [(4096, ⟨none, none, none, "ab"⟩)]) ∧
    Tag.from_static ⟨4096, "a"⟩ [(4096, ⟨none, none, none, "ab"⟩)] =
      some (⟨none, none, none, "ab"⟩, [(4096, ⟨none, none, none, "ab"⟩)]) ∧
    Tag.new "a" = some ⟨none, none, none, "a"⟩ ∧
    (⟨none, none, none, "ab"⟩ : Tag) ≠ ⟨none, none, none, "a"⟩ := by
  refine ⟨by decide, by decide, by decide, by decide⟩

/-- Claim C5: with the map-value flag set (an optional field of a record),
`deserialize_option` on an empty attribute-free element (start immediately
followed by its end) consumes both events and yields the absent value
(`visit_none`); on the same element carrying at least one attribute it
yields a present value (`visit_some`) without consuming anything, the
attributes alone signalling presence. -/
theorem c5_option_absent_present {α : Type}
    (visit_some visit_none : DeState → Except Error (α × DeState))
    (name : XName) (attributes : List XAttr) (ns : List (String × String))
    (tail : List XmlEvent) (depth : Int)
    (hattrs : attributes ≠ []) :
    deserialize_option visit_some visit_none
        ⟨.StartElement name [] ns :: .EndElement name :: tail, 0, depth, true⟩ =
      visit_none ⟨tail, 0, depth, false⟩ ∧
    deserialize_option visit_some visit_none
        ⟨.StartElement name attributes ns :: .EndElement name :: tail, 0, depth, true⟩ =
      visit_some ⟨.StartElement name attributes ns :: .EndElement name :: tail, 0, depth, true⟩ := by
  have hne : attributes.isEmpty = false := by
    cases attributes with
    | nil => exact absurd rfl hattrs
    | cons a l => rfl
  constructor
  · show visit_none ⟨tail, 0, depth + 1 - 1, false⟩ = visit_none ⟨tail, 0, depth, false⟩
    norm_num
  · simp only [deserialize_option, DeState.peek, List.get?, DeState.reset_peek, hne,
      Bool.not_false, if_true]

/-- Claim C5 witness: the theorem applied at a concrete single-field
document, an empty `<f/>` decoding to absent and `<f a="1"/>` decoding to
present. -/
theorem c5_option_absent_present_witness :
    deserialize_option (fun st => .ok (true, st)) (fun st => .ok (false, st))
        ⟨[.StartElement ⟨"f", none, none⟩ [] [], .EndElement ⟨"f", none, none⟩], 0, 0, true⟩ =
      .ok (false, ⟨[], 0, 0, false⟩) ∧
    deserialize_option (fun st => .ok (true, st)) (fun st => .ok (false, st))
        ⟨[.StartElement ⟨"f", none, none⟩ [⟨⟨"a", none, none⟩, "1"⟩] [],
          .EndElement ⟨"f", none, none⟩], 0, 0, true⟩ =
      .ok (true, ⟨[.StartElement ⟨"f", none, none⟩ [⟨⟨"a", none, none⟩, "1"⟩] [],
          .EndElement ⟨"f", none, none⟩], 0, 0, true⟩) :=
  c5_option_absent_present (α := Bool)
    (fun st => .ok (true, st)) (fun st => .ok (false, st))
    ⟨"f", none, none⟩ [⟨⟨"a", none, none⟩, "1"⟩] [] [] 0 (by decide)

set_option maxRecDepth 40000 in
/-- Claim C3 counterexample: encoding two sibling elements that both declare
the namespace `urn:ns` within one scope emits the `xsi:schemaLocation`
attribute and the namespace declaration on **both** start elements — the
namespace is popped from the stack when the first sibling closes, so nothing
is suppressed on the second, contradicting "only on the outer/first
occurrence". -/
theorem c3_sibling_dedup_counterexample :
    format_data
        (.Struct [] [("\x7burn:ns\x7da", .String "x"), ("\x7burn:ns\x7db", .String "y")])
        (initState true) =
      some ([.StartElement "a" [(some "xsi", xsiNamespace), (none, "urn:ns")]
               [(⟨"schemaLocation", none, some "xsi"⟩, "urn:ns ns.xsd")],
             .Characters "x", .EndElement,
             .StartElement "b" [(some "xsi", xsiNamespace), (none, "urn:ns")]
               [(⟨"schemaLocation", none, some "xsi"⟩, "urn:ns ns.xsd")],
             .Characters "y", .EndElement], initState true) ∧
    countSchemaLocationAttrs
        [.StartElement "a" [(some "xsi", xsiNamespace), (none, "urn:ns")]
           [(⟨"schemaLocation", none, some "xsi"⟩, "urn:ns ns.xsd")],
         .Characters "x", .EndElement,
         .StartElement "b" [(some "xsi", xsiNamespace), (none, "urn:ns")]
           [(⟨"schemaLocation", none, some "xsi"⟩, "urn:ns ns.xsd")],
         .Characters "y", .EndElement] = 2 :=
  ⟨rfl, by decide⟩

set_option maxRecDepth 40000 in
/-- Claim C3 amended: the deduplication is scoped to nesting, not siblings —
when an element is emitted while its namespace is already on the namespace
stack (declared by a still-open ancestor element), the `xsi:schemaLocation`
attribute is emitted only on the outer element and not repeated on the inner
one (and the namespace is not re-pushed); the namespace declaration itself
is attached to every element event, its textual deduplication being left to
the external emitter's scope tracking. -/
theorem c3_nested_namespace_dedup :
    format_data
        (.Struct [] [("\x7burn:ns\x7dout", .Struct [] [("\x7burn:ns\x7din", .String "x")])])
        (initState true) =
      some ([.StartElement "out" [(some "xsi", xsiNamespace), (none, "urn:ns")]
               [(⟨"schemaLocation", none, some "xsi"⟩, "urn:ns ns.xsd")],
             .StartElement "in" [(some "xsi", xsiNamespace), (none, "urn:ns")] [],
             .Characters "x", .EndElement, .EndElement], initState true) ∧
    countSchemaLocationAttrs
        [.StartElement "out" [(some "xsi", xsiNamespace), (none, "urn:ns")]
           [(⟨"schemaLocation", none, some "xsi"⟩, "urn:ns ns.xsd")],
         .StartElement "in" [(some "xsi", xsiNamespace), (none, "urn:ns")] [],
         .Characters "x", .EndElement, .EndElement] = 1 :=
  ⟨rfl, by decide⟩

set_option maxRecDepth 40000 in
/-- Claim C1, settled as a code bug at the failing input `v = Doc (x: 1.5)`,
a record with one f64 field `x` holding `1.5` (whose Rust rendering is
`"1.5"`): the encode side builds the tree `Struct [("x", String "1.5")]` and
linearizes it to `<x>1.5</x>`, but the decode side reads the f64 field
through the unsigned-integer parser (`deserialize_f64` calls
`visit_u64(self.parse_int()?)`), so `"1.5"` fails to parse and the whole
decode returns `Err(ExpectedInt)` where the claim requires `Ok(v)` — the
divergence the spec itself flags (§9) as a bug in the source's
floating-point path. -/
theorem c1_float_roundtrip_code_bug :
    serialize_f64 "1.5" = .ok (.String "1.5") ∧
    (StructSerializer.serialize_field ⟨[], []⟩ "x" (.String "1.5")).end_ =
      .ok (.Struct [] [("x", .String "1.5")]) ∧
    format_data (.Struct [] [("x", .String "1.5")]) (initState true) =
      some ([.StartElement "x" [(some "xsi", xsiNamespace)] [],
             .Characters "1.5", .EndElement], initState true) ∧
    Fields.ofList ["x"] = some ⟨[⟨none, "x", "x", false⟩], false⟩ ∧
    MapAccess.next_key_seed (MapAccess.new [] ⟨[⟨none, "x", "x", false⟩], false⟩)
        ⟨[.StartElement ⟨"x", none, none⟩ [] [("xsi", xsiNamespace)],
          .Characters "1.5", .EndElement ⟨"x", none, none⟩, .EndDocument], 0, 0, false⟩ =
      .ok (some "x", ⟨[], ⟨[⟨none, "x", "x", false⟩], false⟩, none, false⟩,
        ⟨[.StartElement ⟨"x", none, none⟩ [] [("xsi", xsiNamespace)],
          .Characters "1.5", .EndElement ⟨"x", none, none⟩, .EndDocument], 0, 0, false⟩) ∧
    MapAccess.next_value_seed (α := Nat)
        ⟨[], ⟨[⟨none, "x", "x", false⟩], false⟩, none, false⟩
        deserialize_f64 (fun _ => .error .Unsupported)
        ⟨[.StartElement ⟨"x", none, none⟩ [] [("xsi", xsiNamespace)],
          .Characters "1.5", .EndElement ⟨"x", none, none⟩, .EndDocument], 0, 0, false⟩ =
      .error .ExpectedInt ∧
    rustParseU64 "1.5" = none :=
  ⟨rfl, rfl, rfl, by decide, rfl, rfl, by decide⟩

/-- Cache invariant of `runFromStatic`: every cache entry either was already
present or records, for some call in the history, that call's address and
the parse of that call's content. -/
theorem runFromStatic_entries :
    ∀ (hist : List StaticStr) (c0 c : TagCache),
      runFromStatic hist c0 = some c →
      ∀ ent ∈ c, ent ∈ c0 ∨ ∃ t ∈ hist, t.addr = ent.1 ∧ Tag.new t.content = some ent.2 := by
  intro hist
  induction hist with
  | nil =>
    intro c0 c h ent hm
    simp only [runFromStatic, Option.some.injEq] at h
    subst h
    exact Or.inl hm
  | cons s rest ih =>
    intro c0 c h ent hm
    rw [runFromStatic] at h
    cases hfs : Tag.from_static s c0 with
    | none => rw [hfs] at h; exact absurd h (by simp)
    | some r =>
      rw [hfs] at h
      rcases ih r.2 c h ent hm with hin | ⟨t, ht, ha, htag⟩
      · unfold Tag.from_static at hfs
        cases hlook : c0.find? (fun ent => ent.1 == s.addr) with
        | some e0 =>
          rw [hlook] at hfs
          have hr : (e0.2, c0) = r := Option.some.inj hfs
          rw [← hr] at hin
          exact Or.inl hin
        | none =>
          rw [hlook] at hfs
          cases htag0 : Tag.new s.content with
          | none => rw [htag0] at hfs; exact absurd hfs (by simp)
          | some t0 =>
            rw [htag0] at hfs
            have hr : (t0, (s.addr, t0) :: c0) = r := Option.some.inj hfs
            rw [← hr] at hin
            rcases List.mem_cons.mp hin with hhd | htl
            · exact Or.inr ⟨s, List.mem_cons_self .., by rw [hhd], by rw [hhd]; exact htag0⟩
            · exact Or.inl htl
      · exact Or.inr ⟨t, List.mem_cons_of_mem _ ht, ha, htag⟩

/-- Claim C8 amended: `from_static` is referentially transparent w.r.t. the
cache — it returns exactly `Tag::new` of its argument's content regardless
of how many `from_static` calls preceded it and in what order — provided no
earlier call used a static string that shares this argument's storage
address with different content (pointer-keyed caching cannot distinguish
such aliases, see the counterexample). -/
theorem c8_from_static_referential_transparency
    (hist : List StaticStr) (cache : TagCache) (s : StaticStr)
    (hrun : runFromStatic hist [] = some cache)
    (hcons : ∀ t ∈ hist, t.addr = s.addr → t.content = s.content) :
    (Tag.from_static s cache).map Prod.fst = Tag.new s.content := by
  unfold Tag.from_static
  cases hlook : cache.find? (fun ent => ent.1 == s.addr) with
  | none =>
    cases htag : Tag.new s.content with
    | none => simp
    | some t => simp
  | some ent =>
    have hmem := List.mem_of_find?_eq_some hlook
    have hbeq := List.find?_some hlook
    have haddr : ent.1 = s.addr := by simpa using hbeq
    rcases runFromStatic_entries hist [] cache hrun ent hmem with hin | ⟨t, ht, ha, htag⟩
    · exact absurd hin (by simp)
    · have hc : t.content = s.content := hcons t ht (by rw [ha, haddr])
      rw [hc] at htag
      simp [htag]

/-- Claim C8 witness: the amended theorem applied to the one-call history
`from_static(&"a")` followed by a second `from_static(&"a")` of the same
string. -/
theorem c8_from_static_referential_transparency_witness :
    (Tag.from_static ⟨7, "a"⟩ [(7, ⟨none, none, none, "a"⟩)]).map Prod.fst = Tag.new "a" :=
  c8_from_static_referential_transparency [⟨7, "a"⟩] [(7, ⟨none, none, none, "a"⟩)] ⟨7, "a"⟩
    (by decide) (by decide)

/-- Claim C7: when decoding a unit variant of a tagged union, after the
discriminant has been read by `variant_seed` (the only path into
`unit_variant`, and the engine always enters it with the peek cursor
rewound), `unit_variant` never reaches its `unreachable!()` panic: it
returns `some` typed result — accepting an attribute-free wrapping element
that closes immediately, accepting a text node, and rejecting an element
carrying attributes with the typed `ExpectedElement` error; and for any
other kind of next event the enclosing `variant_seed` itself has already
failed with the typed `ExpectedString` error, so the decode call fails
atomically with a single typed error rather than crashing. -/
theorem c7_unit_variant_typed_errors
    (accepted : List String) (fs : Fields) (st : DeState) (v : String) (st' : DeState)
    (hp : st.peekIdx = 0)
    (hs : variant_seed accepted fs st = .ok (v, st')) :
    (∃ r : Except Error DeState, unit_variant st' = some r) ∧
    (∀ s tl, st.events = XmlEvent.Characters s :: tl →
      unit_variant st' = some (.ok ⟨tl, 0, st.depth, false⟩)) ∧
    (∀ s tl, st.events = XmlEvent.CData s :: tl →
      unit_variant st' = some (.ok ⟨tl, 0, st.depth, false⟩)) ∧
    (∀ n ns tl, st.events = XmlEvent.StartElement n [] ns :: XmlEvent.EndElement n :: tl →
      unit_variant st' = some (.ok ⟨tl, 0, st.depth, false⟩)) ∧
    (∀ n a attrs ns tl, st.events = XmlEvent.StartElement n (a :: attrs) ns :: tl →
      unit_variant st' = some (.error .ExpectedElement)) ∧
    (∀ (st2 : DeState) (ev : XmlEvent) (tl : List XmlEvent),
      st2.peekIdx = 0 → st2.events = ev :: tl →
      (match ev with
       | XmlEvent.StartElement _ _ _ => True
       | XmlEvent.Characters _ => True
       | XmlEvent.CData _ => True
       | _ => variant_seed accepted fs st2 = .error .ExpectedString)) := by
  have hother : ∀ (st2 : DeState) (ev : XmlEvent) (tl : List XmlEvent),
      st2.peekIdx = 0 → st2.events = ev :: tl →
      (match ev with
       | XmlEvent.StartElement _ _ _ => True
       | XmlEvent.Characters _ => True
       | XmlEvent.CData _ => True
       | _ => variant_seed accepted fs st2 = .error .ExpectedString) := by
    intro st2 ev tl hp2 hev2
    have hget : st2.events.get? st2.peekIdx = some ev := by rw [hp2, hev2]; rfl
    cases ev <;> simp only [] <;>
      simp only [variant_seed, DeState.peek, hget]
  cases hev : st.events with
  | nil =>
    exfalso
    have hget : st.events.get? st.peekIdx = none := by rw [hp, hev]; rfl
    rw [variant_seed, DeState.peek, hget] at hs
    exact absurd hs (by simp)
  | cons ev tl =>
    have hget : st.events.get? st.peekIdx = some ev := by rw [hp, hev]; rfl
    rw [variant_seed, DeState.peek, hget] at hs
    cases ev with
    | StartElement n0 attrs0 ns0 =>
      have hs' : (if accepted.contains (fs.match_field n0) = true
          then Except.ok (fs.match_field n0,
            ((DeState.mk st.events (st.peekIdx + 1) st.depth st.is_map_value).set_map_value).reset_peek)
          else Except.error (Error.Message ("unknown variant " ++ fs.match_field n0)))
          = Except.ok (v, st') := hs
      by_cases hacc : accepted.contains (fs.match_field n0) = true
      · rw [if_pos hacc] at hs'
        have hpair := Except.ok.inj hs'
        have hst' : st' = ⟨st.events, 0, st.depth, true⟩ := (congrArg Prod.snd hpair).symm
        subst hst'
        refine ⟨?_, ?_, ?_, ?_, ?_, hother⟩
        · rw [unit_variant]
          simp only [DeState.unset_map_value, DeState.next, hev]
          cases attrs0 with
          | nil => exact ⟨_, rfl⟩
          | cons a as => exact ⟨_, rfl⟩
        · intro s tl2 habs; exact absurd habs (by simp)
        · intro s tl2 habs; exact absurd habs (by simp)
        · intro n1 ns1 tl1 heq
          injection heq with h1 h2
          injection h1 with hn hattrs hns
          subst hn; subst hattrs; subst hns; subst h2
          rw [unit_variant]
          simp [DeState.unset_map_value, DeState.next, hev,
            DeState.expect_end_element, add_sub_cancel_right]
        · intro n1 a1 attrs1 ns1 tl1 heq
          injection heq with h1 h2
          injection h1 with hn hattrs hns
          subst hn; subst hattrs; subst hns; subst h2
          rw [unit_variant]
          simp [DeState.unset_map_value, DeState.next, hev]
      · rw [if_neg hacc] at hs'
        exact absurd hs' (by simp)
    | Characters s0 =>
      have hs' : (if accepted.contains s0 = true
          then Except.ok (s0,
            (DeState.mk st.events (st.peekIdx + 1) st.depth st.is_map_value).reset_peek)
          else Except.error (Error.Message ("unknown variant " ++ s0)))
          = Except.ok (v, st') := hs
      by_cases hacc : accepted.contains s0 = true
      · rw [if_pos hacc] at hs'
        have hpair := Except.ok.inj hs'
        have hst' : st' = ⟨st.events, 0, st.depth, st.is_map_value⟩ :=
          (congrArg Prod.snd hpair).symm
        subst hst'
        refine ⟨?_, ?_, ?_, ?_, ?_, hother⟩
        · rw [unit_variant]
          simp only [DeState.unset_map_value, DeState.next, hev]
          exact ⟨_, rfl⟩
        · intro s tl2 heq
          injection heq with h1 h2
          subst h2
          rw [unit_variant]
          simp [DeState.unset_map_value, DeState.next, hev]
        · intro s tl2 heq; exact absurd heq (by simp)
        · intro n1 ns1 tl1 heq; exact absurd heq (by simp)
        · intro n1 a1 attrs1 ns1 tl1 heq; exact absurd heq (by simp)
      · rw [if_neg hacc] at hs'
        exact absurd hs' (by simp)
    | CData s0 =>
      have hs' : (if accepted.contains s0 = true
          then Except.ok (s0,
            (DeState.mk st.events (st.peekIdx + 1) st.depth st.is_map_value).reset_peek)
          else Except.error (Error.Message ("unknown variant " ++ s0)))
          = Except.ok (v, st') := hs
      by_cases hacc : accepted.contains s0 = true
      · rw [if_pos hacc] at hs'
        have hpair := Except.ok.inj hs'
        have hst' : st' = ⟨st.events, 0, st.depth, st.is_map_value⟩ :=
          (congrArg Prod.snd hpair).symm
        subst hst'
        refine ⟨?_, ?_, ?_, ?_, ?_, hother⟩
        · rw [unit_variant]
          simp only [DeState.unset_map_value, DeState.next, hev]
          exact ⟨_, rfl⟩
        · intro s tl2 heq; exact absurd heq (by simp)
        · intro s tl2 heq
          injection heq with h1 h2
          subst h2
          rw [unit_variant]
          simp [DeState.unset_map_value, DeState.next, hev]
        · intro n1 ns1 tl1 heq; exact absurd heq (by simp)
        · intro n1 a1 attrs1 ns1 tl1 heq; exact absurd heq (by simp)
      · rw [if_neg hacc] at hs'
        exact absurd hs' (by simp)
    | StartDocument => exact absurd hs (by simp)
    | EndDocument => exact absurd hs (by simp)
    | EndElement n0 => exact absurd hs (by simp)
    | Comment s0 => exact absurd hs (by simp)
    | Whitespace s0 => exact absurd hs (by simp)
    | ProcessingInstruction n0 d0 => exact absurd hs (by simp)

/-- Claim C7 witness: the theorem applied to the concrete stream
`<a/>` with the single declared variant `a`. -/
theorem c7_unit_variant_typed_errors_witness :
    (∃ r : Except Error DeState,
      unit_variant ⟨[.StartElement ⟨"a", none, none⟩ [] [],
        .EndElement ⟨"a", none, none⟩], 0, 0, true⟩ = some r) ∧
    unit_variant ⟨[.StartElement ⟨"a", none, none⟩ [] [],
        .EndElement ⟨"a", none, none⟩], 0, 0, true⟩ = some (.ok ⟨[], 0, 0, false⟩) := by
  have hseed : variant_seed ["a"] ⟨[⟨none, "a", "a", false⟩], false⟩
      ⟨[.StartElement ⟨"a", none, none⟩ [] [], .EndElement ⟨"a", none, none⟩], 0, 0, false⟩ =
      .ok ("a", ⟨[.StartElement ⟨"a", none, none⟩ [] [],
        .EndElement ⟨"a", none, none⟩], 0, 0, true⟩) := rfl
  have h := c7_unit_variant_typed_errors ["a"] ⟨[⟨none, "a", "a", false⟩], false⟩
    ⟨[.StartElement ⟨"a", none, none⟩ [] [], .EndElement ⟨"a", none, none⟩], 0, 0, false⟩
    "a" ⟨[.StartElement ⟨"a", none, none⟩ [] [], .EndElement ⟨"a", none, none⟩], 0, 0, true⟩
    rfl hseed
  exact ⟨h.1, h.2.2.2.1 ⟨"a", none, none⟩ [] [] rfl⟩

/-- Element-opening state discipline: `startElementFor` either leaves the
state untouched (returning `should_pop = false`) or pushes exactly one
namespace onto the stack (returning `should_pop = true`), never touching the
other fields. -/
theorem startElementFor_state (caps : Captures) (name : String)
    (resolved : List (XName × String)) (state : _SerializerState) :
    ((startElementFor caps name resolved state).2.1 = false ∧
      (startElementFor caps name resolved state).2.2 = state) ∨
    ((startElementFor caps name resolved state).2.1 = true ∧ ∃ n,
      (startElementFor caps name resolved state).2.2 =
        { state with ns_stack := state.ns_stack ++ [n] }) := by
  unfold startElementFor
  cases caps.n with
  | none => exact Or.inl ⟨rfl, rfl⟩
  | some n =>
    dsimp only
    by_cases hmem : (state.ns_stack.any fun ns => ns == n) = true
    · rw [if_pos hmem]
      exact Or.inl ⟨rfl, rfl⟩
    · rw [if_neg hmem]
      exact Or.inr ⟨rfl, n, rfl⟩

/-- Preservation of the serializer state through one element emission (the
shared shape of `format_contents`' single-value arm and `format_siblings`'
loop body), with the preservation facts for the recursive calls taken as
hypotheses. -/
theorem emit_element_preserves
    (caps : Captures) (name : String) (d : _SerializerData)
    (dAttrs : List (String × String)) (state : _SerializerState)
    (r : List WEvent × _SerializerState)
    (contF : _SerializerState → Option (List WEvent × _SerializerState))
    (ihd : ∀ st r1, format_data d st = some r1 → r1.2 = st)
    (ihc : ∀ st r2, contF st = some r2 → r2.2 = st)
    (h : (match resolveAttrs dAttrs with
          | none => none
          | some resolved =>
            match format_data d (startElementFor caps name resolved state).2.2 with
            | none => none
            | some (evs1, st2) =>
              match contF (if (startElementFor caps name resolved state).2.1 = true then
                  { st2 with ns_stack := st2.ns_stack.dropLast } else st2) with
              | none => none
              | some (evs2, st4) =>
                some ([(startElementFor caps name resolved state).1] ++ evs1 ++
                  [.EndElement] ++ evs2, st4)) = some r) :
    r.2 = state := by
  cases hra : resolveAttrs dAttrs with
  | none => rw [hra] at h; exact absurd h (by simp)
  | some resolved =>
    rw [hra] at h
    dsimp only at h
    rcases hse : startElementFor caps name resolved state with ⟨elm, should_pop, st1⟩
    rw [hse] at h
    dsimp only at h
    have hlem := startElementFor_state caps name resolved state
    rw [hse] at hlem
    cases h2 : format_data d st1 with
    | none => rw [h2] at h; exact absurd h (by simp)
    | some r1 =>
      obtain ⟨evs1, st2⟩ := r1
      rw [h2] at h
      dsimp only at h
      have e1 : st2 = st1 := ihd st1 (evs1, st2) h2
      cases h3 : contF (if should_pop then { st2 with ns_stack := st2.ns_stack.dropLast }
          else st2) with
      | none => rw [h3] at h; exact absurd h (by simp)
      | some r2 =>
        obtain ⟨evs2, st4⟩ := r2
        rw [h3] at h
        dsimp only at h
        injection h with h4
        cases h4
        have e3 : st4 = (if should_pop then { st2 with ns_stack := st2.ns_stack.dropLast }
            else st2) :=
          ihc _ (evs2, st4) h3
        show st4 = state
        rcases hlem with ⟨hsp, hst1⟩ | ⟨hsp, n1, hst1⟩
        · have hsp' : should_pop = false := hsp
          have hst1' : st1 = state := hst1
          rw [hsp'] at e3
          simp only [Bool.false_eq_true, if_false] at e3
          rw [e3, e1, hst1']
        · have hsp' : should_pop = true := hsp
          have hst1' : st1 = { state with ns_stack := state.ns_stack ++ [n1] } := hst1
          rw [hsp'] at e3
          simp only [if_true] at e3
          rw [e3, e1, hst1']
          simp [List.dropLast_concat]

/-- Unfolding equation of `format_contents` on a cons cell. -/
theorem format_contents_cons_eq (tag : String) (d : _SerializerData)
    (rest : List (String × _SerializerData)) (state : _SerializerState) :
    format_contents ((tag, d) :: rest) state = format_contents_cons tag d rest state := by
  cases d <;> rfl

set_option maxHeartbeats 2000000 in
mutual

/-- Preservation half of claim C10 for `format_data`: a successful
linearization returns the serializer state exactly as it was at entry. -/
theorem format_data_preserves :
    ∀ (val : _SerializerData) (state : _SerializerState)
      (r : List WEvent × _SerializerState),
      format_data val state = some r → r.2 = state
  | .CData s, state, r, h => by
    have h1 : some ([WEvent.CData (if state.raw_output then s else escape_str_pcdata s)],
        state) = some r := h
    injection h1 with h2
    cases h2
    rfl
  | .String s, state, r, h => by
    have h1 : some ([WEvent.Characters (if state.raw_output then s else escape_str_pcdata s)],
        state) = some r := h
    injection h1 with h2
    cases h2
    rfl
  | .Seq s, state, r, h => format_seq_preserves s state r h
  | .Struct attrs contents, state, r, h => format_contents_preserves contents state r h
termination_by val state r h => sizeOf val

/-- Preservation of the state through `format_seq`. -/
theorem format_seq_preserves :
    ∀ (s : List _SerializerData) (state : _SerializerState)
      (r : List WEvent × _SerializerState),
      format_seq s state = some r → r.2 = state
  | [], state, r, h => by
    have h1 : some (([] : List WEvent), state) = some r := h
    injection h1 with h2
    cases h2
    rfl
  | d :: rest, state, r, h => by
    have h0 : (match format_data d state with
        | none => none
        | some (evs1, st1) =>
          match format_seq rest st1 with
          | none => none
          | some (evs2, st2) => some (evs1 ++ evs2, st2)) = some r := h
    cases h1 : format_data d state with
    | none => rw [h1] at h0; exact absurd h0 (by simp)
    | some r1 =>
      obtain ⟨evs1, st1⟩ := r1
      rw [h1] at h0
      have h0' : (match format_seq rest st1 with
          | none => none
          | some (evs2, st2) => some (evs1 ++ evs2, st2)) = some r := h0
      cases h2 : format_seq rest st1 with
      | none => rw [h2] at h0'; exact absurd h0' (by simp)
      | some r2 =>
        obtain ⟨evs2, st2⟩ := r2
        rw [h2] at h0'
        have h3 : some (evs1 ++ evs2, st2) = some r := h0'
        injection h3 with h4
        cases h4
        have e1 : st1 = state := format_data_preserves d state (evs1, st1) h1
        have e2 : st2 = st1 := format_seq_preserves rest st1 (evs2, st2) h2
        exact e2.trans e1
termination_by s state r h => sizeOf s

/-- Preservation of the state through `format_contents`: the raw-output flag
is restored after a `$valueRaw` subtree and every pushed namespace is popped
when its element closes. -/
theorem format_contents_preserves :
    ∀ (contents : List (String × _SerializerData)) (state : _SerializerState)
      (r : List WEvent × _SerializerState),
      format_contents contents state = some r → r.2 = state
  | [], state, r, h => by
    have h1 : some (([] : List WEvent), state) = some r := h
    injection h1 with h2
    cases h2
    rfl
  | (tag, d) :: rest, state, r, h => by
    rw [format_contents_cons_eq] at h
    unfold format_contents_cons at h
    have h0 := h
    by_cases hraw : (tag == "$valueRaw") = true
    · rw [if_pos hraw] at h0
      cases h1 : format_data d { state with raw_output := true } with
      | none => rw [h1] at h0; exact absurd h0 (by simp)
      | some r1 =>
        obtain ⟨evs1, st1⟩ := r1
        rw [h1] at h0
        have h0' : (match format_contents rest { st1 with raw_output := state.raw_output } with
            | none => none
            | some (evs2, st2) => some (evs1 ++ evs2, st2)) = some r := h0
        cases h2 : format_contents rest { st1 with raw_output := state.raw_output } with
        | none => rw [h2] at h0'; exact absurd h0' (by simp)
        | some r2 =>
          obtain ⟨evs2, st2⟩ := r2
          rw [h2] at h0'
          have h3 : some (evs1 ++ evs2, st2) = some r := h0'
          injection h3 with h4
          cases h4
          have e1 : st1 = { state with raw_output := true } :=
            format_data_preserves d { state with raw_output := true } (evs1, st1) h1
          have e2 : st2 = { st1 with raw_output := state.raw_output } :=
            format_contents_preserves rest { st1 with raw_output := state.raw_output }
              (evs2, st2) h2
          show st2 = state
          rw [e2, e1]
    · rw [if_neg hraw] at h0
      by_cases hval : strStartsWith tag "$value" = true
      · rw [if_pos hval] at h0
        cases h1 : format_data d state with
        | none => rw [h1] at h0; exact absurd h0 (by simp)
        | some r1 =>
          obtain ⟨evs1, st1⟩ := r1
          rw [h1] at h0
          have h0' : (match format_contents rest st1 with
              | none => none
              | some (evs2, st2) => some (evs1 ++ evs2, st2)) = some r := h0
          cases h2 : format_contents rest st1 with
          | none => rw [h2] at h0'; exact absurd h0' (by simp)
          | some r2 =>
            obtain ⟨evs2, st2⟩ := r2
            rw [h2] at h0'
            have h3 : some (evs1 ++ evs2, st2) = some r := h0'
            injection h3 with h4
            cases h4
            have e1 : st1 = state := format_data_preserves d state (evs1, st1) h1
            have e2 : st2 = st1 := format_contents_preserves rest st1 (evs2, st2) h2
            exact e2.trans e1
      · rw [if_neg hval] at h0
        cases hcaps : libNameReCaptures tag with
        | none => rw [hcaps] at h0; exact absurd h0 (by simp)
        | some caps =>
          rw [hcaps] at h0
          cases d with
          | Seq s =>
            have h1 : (match format_siblings caps (match caps.p with
                | some pStr => pStr ++ ":" ++ caps.e
                | none => caps.e) s state with
                | none => none
                | some (evs1, st1) =>
                  match format_contents rest st1 with
                  | none => none
                  | some (evs2, st2) => some (evs1 ++ evs2, st2)) = some r := h0
            cases h2 : format_siblings caps (match caps.p with
                | some pStr => pStr ++ ":" ++ caps.e
                | none => caps.e) s state with
            | none => rw [h2] at h1; exact absurd h1 (by simp)
            | some r1 =>
              obtain ⟨evs1, st1⟩ := r1
              rw [h2] at h1
              have h1' : (match format_contents rest st1 with
                  | none => none
                  | some (evs2, st2) => some (evs1 ++ evs2, st2)) = some r := h1
              cases h3 : format_contents rest st1 with
              | none => rw [h3] at h1'; exact absurd h1' (by simp)
              | some r2 =>
                obtain ⟨evs2, st2⟩ := r2
                rw [h3] at h1'
                have h4 : some (evs1 ++ evs2, st2) = some r := h1'
                injection h4 with h5
                cases h5
                have e1 : st1 = state :=
                  format_siblings_preserves caps (match caps.p with
                | some pStr => pStr ++ ":" ++ caps.e
                | none => caps.e) s state (evs1, st1) h2
                have e2 : st2 = st1 := format_contents_preserves rest st1 (evs2, st2) h3
                exact e2.trans e1
          | CData s0 =>
            have hf : (match resolveAttrs [] with
                | none => none
                | some resolved =>
                  match format_data (_SerializerData.CData s0)
                      (startElementFor caps (match caps.p with
                | some pStr => pStr ++ ":" ++ caps.e
                | none => caps.e) resolved state).2.2 with
                  | none => none
                  | some (evs1, st2) =>
                    match format_contents rest
                        (if (startElementFor caps (match caps.p with
                | some pStr => pStr ++ ":" ++ caps.e
                | none => caps.e) resolved state).2.1 = true then
                          { st2 with ns_stack := st2.ns_stack.dropLast } else st2) with
                    | none => none
                    | some (evs2, st4) =>
                      some ([(startElementFor caps (match caps.p with
                | some pStr => pStr ++ ":" ++ caps.e
                | none => caps.e) resolved state).1] ++ evs1 ++
                        [WEvent.EndElement] ++ evs2, st4)) = some r := h0
            exact emit_element_preserves caps
              (match caps.p with
                | some pStr => pStr ++ ":" ++ caps.e
                | none => caps.e) (.CData s0) [] state r
              (fun st => format_contents rest st)
              (fun st r1 hh => format_data_preserves (.CData s0) st r1 hh)
              (fun st r2 hh => format_contents_preserves rest st r2 hh) hf
          | String s0 =>
            have hf : (match resolveAttrs [] with
                | none => none
                | some resolved =>
                  match format_data (_SerializerData.String s0)
                      (startElementFor caps (match caps.p with
                | some pStr => pStr ++ ":" ++ caps.e
                | none => caps.e) resolved state).2.2 with
                  | none => none
                  | some (evs1, st2) =>
                    match format_contents rest
                        (if (startElementFor caps (match caps.p with
                | some pStr => pStr ++ ":" ++ caps.e
                | none => caps.e) resolved state).2.1 = true then
                          { st2 with ns_stack := st2.ns_stack.dropLast } else st2) with
                    | none => none
                    | some (evs2, st4) =>
                      some ([(startElementFor caps (match caps.p with
                | some pStr => pStr ++ ":" ++ caps.e
                | none => caps.e) resolved state).1] ++ evs1 ++
                        [WEvent.EndElement] ++ evs2, st4)) = some r := h0
            exact emit_element_preserves caps
              (match caps.p with
                | some pStr => pStr ++ ":" ++ caps.e
                | none => caps.e) (.String s0) [] state r
              (fun st => format_contents rest st)
              (fun st r1 hh => format_data_preserves (.String s0) st r1 hh)
              (fun st r2 hh => format_contents_preserves rest st r2 hh) hf
          | Struct attrs0 contents0 =>
            have hf : (match resolveAttrs attrs0 with
                | none => none
                | some resolved =>
                  match format_data (_SerializerData.Struct attrs0 contents0)
                      (startElementFor caps (match caps.p with
                | some pStr => pStr ++ ":" ++ caps.e
                | none => caps.e) resolved state).2.2 with
                  | none => none
                  | some (evs1, st2) =>
                    match format_contents rest
                        (if (startElementFor caps (match caps.p with
                | some pStr => pStr ++ ":" ++ caps.e
                | none => caps.e) resolved state).2.1 = true then
                          { st2 with ns_stack := st2.ns_stack.dropLast } else st2) with
                    | none => none
                    | some (evs2, st4) =>
                      some ([(startElementFor caps (match caps.p with
                | some pStr => pStr ++ ":" ++ caps.e
                | none => caps.e) resolved state).1] ++ evs1 ++
                        [WEvent.EndElement] ++ evs2, st4)) = some r := h0
            exact emit_element_preserves caps
              (match caps.p with
                | some pStr => pStr ++ ":" ++ caps.e
                | none => caps.e) (.Struct attrs0 contents0) attrs0 state r
              (fun st => format_contents rest st)
              (fun st r1 hh => format_data_preserves (.Struct attrs0 contents0) st r1 hh)
              (fun st r2 hh => format_contents_preserves rest st r2 hh) hf
termination_by contents state r h => sizeOf contents

/-- Preservation of the state through `format_siblings`: the namespace is
pushed and popped per sibling member. -/
theorem format_siblings_preserves :
    ∀ (caps : Captures) (name : String) (s : List _SerializerData)
      (state : _SerializerState) (r : List WEvent × _SerializerState),
      format_siblings caps name s state = some r → r.2 = state
  | caps, name, [], state, r, h => by
    have h1 : some (([] : List WEvent), state) = some r := h
    injection h1 with h2
    cases h2
    rfl
  | caps, name, d :: rest, state, r, h => by
    cases d with
    | CData s0 =>
      have hf : (match resolveAttrs [] with
          | none => none
          | some resolved =>
            match format_data (_SerializerData.CData s0)
                (startElementFor caps name resolved state).2.2 with
            | none => none
            | some (evs1, st2) =>
              match format_siblings caps name rest
                  (if (startElementFor caps name resolved state).2.1 = true then
                    { st2 with ns_stack := st2.ns_stack.dropLast } else st2) with
              | none => none
              | some (evs2, st4) =>
                some ([(startElementFor caps name resolved state).1] ++ evs1 ++
                  [WEvent.EndElement] ++ evs2, st4)) = some r := h
      exact emit_element_preserves caps name (.CData s0) [] state r
        (fun st => format_siblings caps name rest st)
        (fun st r1 hh => format_data_preserves (.CData s0) st r1 hh)
        (fun st r2 hh => format_siblings_preserves caps name rest st r2 hh) hf
    | String s0 =>
      have hf : (match resolveAttrs [] with
          | none => none
          | some resolved =>
            match format_data (_SerializerData.String s0)
                (startElementFor caps name resolved state).2.2 with
            | none => none
            | some (evs1, st2) =>
              match format_siblings caps name rest
                  (if (startElementFor caps name resolved state).2.1 = true then
                    { st2 with ns_stack := st2.ns_stack.dropLast } else st2) with
              | none => none
              | some (evs2, st4) =>
                some ([(startElementFor caps name resolved state).1] ++ evs1 ++
                  [WEvent.EndElement] ++ evs2, st4)) = some r := h
      exact emit_element_preserves caps name (.String s0) [] state r
        (fun st => format_siblings caps name rest st)
        (fun st r1 hh => format_data_preserves (.String s0) st r1 hh)
        (fun st r2 hh => format_siblings_preserves caps name rest st r2 hh) hf
    | Seq s0 =>
      have hf : (match resolveAttrs [] with
          | none => none
          | some resolved =>
            match format_data (_SerializerData.Seq s0)
                (startElementFor caps name resolved state).2.2 with
            | none => none
            | some (evs1, st2) =>
              match format_siblings caps name rest
                  (if (startElementFor caps name resolved state).2.1 = true then
                    { st2 with ns_stack := st2.ns_stack.dropLast } else st2) with
              | none => none
              | some (evs2, st4) =>
                some ([(startElementFor caps name resolved state).1] ++ evs1 ++
                  [WEvent.EndElement] ++ evs2, st4)) = some r := h
      exact emit_element_preserves caps name (.Seq s0) [] state r
        (fun st => format_siblings caps name rest st)
        (fun st r1 hh => format_data_preserves (.Seq s0) st r1 hh)
        (fun st r2 hh => format_siblings_preserves caps name rest st r2 hh) hf
    | Struct attrs0 contents0 =>
      have hf : (match resolveAttrs attrs0 with
          | none => none
          | some resolved =>
            match format_data (_SerializerData.Struct attrs0 contents0)
                (startElementFor caps name resolved state).2.2 with
            | none => none
            | some (evs1, st2) =>
              match format_siblings caps name rest
                  (if (startElementFor caps name resolved state).2.1 = true then
                    { st2 with ns_stack := st2.ns_stack.dropLast } else st2) with
              | none => none
              | some (evs2, st4) =>
                some ([(startElementFor caps name resolved state).1] ++ evs1 ++
                  [WEvent.EndElement] ++ evs2, st4)) = some r := h
      exact emit_element_preserves caps name (.Struct attrs0 contents0) attrs0 state r
        (fun st => format_siblings caps name rest st)
        (fun st r1 hh => format_data_preserves (.Struct attrs0 contents0) st r1 hh)
        (fun st r2 hh => format_siblings_preserves caps name rest st r2 hh) hf
termination_by caps name s state r h => sizeOf s

end

/-- Claim C10: the linearizer restores the serializer state on every exit
path that returns `Ok` — after a successful `format_data` call the namespace
stack holds exactly the entries it held at entry (every namespace pushed for
an element is popped when that element closes), and the raw-output escaping
flag equals its value at entry even when a `$valueRaw` subtree was processed
inside. -/
theorem c10_format_data_state_restored
    (val : _SerializerData) (state : _SerializerState)
    (evs : List WEvent) (state' : _SerializerState)
    (h : format_data val state = some (evs, state')) :
    state'.ns_stack = state.ns_stack ∧ state'.raw_output = state.raw_output := by
  have h2 : state' = state := format_data_preserves val state (evs, state') h
  rw [h2]
  exact ⟨rfl, rfl⟩

/-- Claim C10 witness: the theorem applied to a concrete tree exercising both
a `$valueRaw` subtree and a namespace push, from a state with a nonempty
namespace stack. -/
theorem c10_format_data_state_restored_witness :
    (⟨false, ["pre"], true⟩ : _SerializerState).ns_stack = ["pre"] ∧
    (⟨false, ["pre"], true⟩ : _SerializerState).raw_output = false := by
  have h := c10_format_data_state_restored
    (.Struct [] [("$valueRaw", .String "r"), ("\x7bns\x7de", .String "t")])
    ⟨false, ["pre"], true⟩
    [.Characters "r",
     .StartElement "e" [(some "xsi", xsiNamespace), (none, "ns")]
       [(⟨"schemaLocation", none, some "xsi"⟩, "ns ns.xsd")],
     .Characters "t", .EndElement]
    ⟨false, ["pre"], true⟩ (by rfl)
  exact h

end XmlSerde
